import Mathlib

/-!
# Verification of the ammonite `SimpleUpgrader` migration runner

A shallow embedding of `src/ammonite/SimpleUpgrader.py` (a Python 2 schema
migration runner) together with proofs about its behaviour.

Modelling conventions:
* The filesystem is an association list from paths to directory listings and
  file entries (`Env.dirListings`, `Env.fileEntries`); `os.listdir` failure is
  an `OSError`, `open` failure is an `IOError` with an errno.
* The database handle is modelled by `Conn`: a committed snapshot and the
  connection's current (uncommitted) view of the database.  A `DB` records the
  changelog table (absent / list of inserted `id`s) and an opaque log of the
  upgrade SQL statements executed so far.  `commit` copies current into
  committed, `rollback` copies committed into current.
* Upgrade scripts are opaque SQL strings; whether executing one succeeds is
  given by `Env.scriptOk`, and a successful execution appends the string to
  `DB.log`.  The rowcount the driver reports after the changelog `INSERT` is
  given by `Env.insertRowcount` (the DB-API does not guarantee it is `1`).
* Python exceptions are the `PyError` type; `Except` models raising.
-/

/-- Python `str.rstrip` whitespace set (space, tab, newline, CR, VT, FF). -/
def pyIsSpace (c : Char) : Bool :=
  c = ' ' || c = '\t' || c = '\n' || c = '\r' || c = '\x0b' || c = '\x0c'

/-- Python `str.rstrip()` : drop trailing whitespace. -/
def pyRstrip (s : String) : String :=
  ⟨(s.data.reverse.dropWhile pyIsSpace).reverse⟩

/-- Split a character list on a separator character, Python `str.split(sep)`
style (consecutive separators yield empty pieces). -/
def splitChar (sep : Char) : List Char → List (List Char)
  | [] => [[]]
  | c :: cs =>
    let r := splitChar sep cs
    if c = sep then [] :: r
    else
      match r with
      | [] => [[c]]
      | h :: t => (c :: h) :: t

/-- Python `s.split(sep)` for a one-character separator. -/
def pySplit (s : String) (sep : Char) : List String :=
  (splitChar sep s.data).map (fun l => ⟨l⟩)

/-- Iterating a Python text file yields its lines; the trailing newline does
not produce an extra empty line. -/
def pyLines (s : String) : List String :=
  let parts := pySplit s '\n'
  match parts.getLast? with
  | some "" => parts.dropLast
  | _ => parts

/-- Strip leading and trailing whitespace (as Python `int()` does). -/
def pyStripWs (s : List Char) : List Char :=
  ((s.dropWhile pyIsSpace).reverse.dropWhile pyIsSpace).reverse

/-- Decimal value of a digit string. -/
def digitsToNat (cs : List Char) : Nat :=
  cs.foldl (fun a c => 10 * a + (c.toNat - 48)) 0

/-- Python `int(s)` for base 10: optional surrounding whitespace, optional
sign, then one or more digits; `none` models `ValueError`. -/
def pyInt? (s : String) : Option Int :=
  match pyStripWs s.data with
  | [] => none
  | '-' :: rest =>
    if !rest.isEmpty && rest.all Char.isDigit then
      some (-(digitsToNat rest : Int))
    else none
  | '+' :: rest =>
    if !rest.isEmpty && rest.all Char.isDigit then
      some (digitsToNat rest : Int)
    else none
  | cs =>
    if cs.all Char.isDigit then some (digitsToNat cs : Int) else none

/-- Python `x[:x.rfind('.')]`: up to the last dot; when there is no dot,
`rfind` is `-1` and `x[:-1]` drops the last character. -/
def stripExtPy (s : String) : String :=
  match s.data.reverse.findIdx? (· = '.') with
  | some i => ⟨s.data.take (s.data.length - 1 - i)⟩
  | none => ⟨s.data.take (s.data.length - 1)⟩

/-- `os.path.join` for the relative paths used by the upgrader. -/
def pathJoin (a b : String) : String := a ++ "/" ++ b

/-- Lexicographic comparison of character lists by code point, as Python
compares strings. -/
def lexLe : List Char → List Char → Bool
  | [], _ => true
  | _ :: _, [] => false
  | a :: as, b :: bs => if a < b then true else if b < a then false else lexLe as bs

/-- Python string `<=`. -/
def pyStrLe (a b : String) : Bool := lexLe a.data b.data

/-- `pyStrLe` as a relation, for use with `List.insertionSort`. -/
def pyLeP (a b : String) : Prop := pyStrLe a b = true

instance : DecidableRel pyLeP :=
  fun a b => inferInstanceAs (Decidable (pyStrLe a b = true))

/-- Python `list.sort()` on strings (any comparison sort of the same total
order yields the same list; duplicates are identical strings). -/
def sortStrings (l : List String) : List String := List.insertionSort pyLeP l

/-- The directory names `"1", "2", …, "N"`. -/
def digitStrings (n : Nat) : List String :=
  (List.range n).map (fun i => toString (i + 1))

/-- A file on disk: readable with contents, or unreadable with an errno. -/
inductive FileEntry
  | readable (contents : String)
  | unreadable (errno : Nat)
deriving DecidableEq

/-- Python exceptions raised by the upgrader or its collaborators. -/
inductive PyError
  | ioErr (errno : Nat)
  | osErr
  | exception (msg : String)
deriving DecidableEq

deriving instance DecidableEq for Except

/-- One database state: the changelog table (`none` = table absent, otherwise
the list of inserted `id`s in insertion order) and the log of upgrade SQL
statements executed against the database. -/
structure DB where
  changelog : Option (List Int)
  log : List String
deriving DecidableEq

/-- A connection: last committed state, the connection's current view, and
the cursor's reported rowcount (read only after the changelog `INSERT`). -/
structure Conn where
  committed : DB
  current : DB
  rowcount : Int
deriving DecidableEq

/-- The world the upgrader runs against: the scripts root, the filesystem,
and the behaviour of the external database driver on opaque statements. -/
structure Env where
  upgradesPath : String
  dirListings : List (String × List String)
  fileEntries : List (String × FileEntry)
  scriptOk : String → Bool
  insertRowcount : Int → Int

/-- `os.listdir`. -/
def listdir (env : Env) (p : String) : Option (List String) :=
  env.dirListings.lookup p

/-- `open(p).read()`: missing file is `IOError` errno 2, an unreadable file
raises its own errno. -/
def openFile (env : Env) (p : String) : Except PyError String :=
  match env.fileEntries.lookup p with
  | none => .error (.ioErr 2)
  | some (.unreadable e) => .error (.ioErr e)
  | some (.readable c) => .ok c

/-- `SELECT MAX(id) FROM <table>` over the recorded ids (`none` = SQL NULL). -/
def maxList : List Int → Option Int
  | [] => none
  | x :: xs => some (xs.foldl max x)

/-- Outcome of the `SELECT MAX(id)` query on a database state: the query
raises iff the changelog table is absent. -/
def queryMax (db : DB) : Except PyError (Option Int) :=
  match db.changelog with
  | none => .error (.exception "no such table")
  | some ids => .ok (maxList ids)

/-- `get_active_version`, factored over the outcome of the `SELECT` so the
bare `except:` is visible: any query failure at all gives `-1`; a successful
query with NULL maximum gives `0`; otherwise the maximum id. -/
def get_active_version_from (q : Except PyError (Option Int)) : Int :=
  match q with
  | .error _ => -1
  | .ok none => 0
  | .ok (some v) => v

/-- `SimpleUpgrader.get_active_version` on the connection's current view. -/
def get_active_version (db : DB) : Int :=
  get_active_version_from (queryMax db)

/-- `SimpleUpgrader.get_available_upgrades`: list the scripts root and sort
the names as strings. -/
def get_available_upgrades (env : Env) : Except PyError (List String) :=
  match listdir env env.upgradesPath with
  | none => .error .osErr
  | some vs => .ok (sortStrings vs)

/-- `SimpleUpgrader.get_latest_upgrade_version`: `int` of the last sorted
entry, `0` when there are no entries. -/
def get_latest_upgrade_version (env : Env) : Except PyError Int :=
  match get_available_upgrades env with
  | .error e => .error e
  | .ok vs =>
    match vs.getLast? with
    | none => .ok 0
    | some last =>
      match pyInt? last with
      | some n => .ok n
      | none => .error (.exception "invalid literal for int")

/-- `SimpleUpgrader.script_prefix` (renamed to satisfy Lean lexical rules):
split on `-`; when there is a part after the first hyphen and the leading
token parses as an int, it RETURNS THE BOOLEAN `int(prefix) > 0`; otherwise
it raises `invalid prefix`.  Note a parseable non-positive token returns
`false` rather than raising. -/
def scriptPrefix (filename : String) : Except PyError Bool :=
  match pySplit filename '-' with
  | [] => .error (.exception "invalid prefix")
  | p :: rest =>
    if rest.length > 0 then
      match pyInt? p with
      | some n => .ok (decide (0 < n))
      | none => .error (.exception "invalid prefix")
    else .error (.exception "invalid prefix")

/-- Decorate each filename with its `scriptPrefix` key, propagating the first
exception, as `list.sort(key=...)` does. -/
def computeKeys : List String → Except PyError (List (String × Bool))
  | [] => .ok []
  | f :: fs =>
    match scriptPrefix f with
    | .error e => .error e
    | .ok k =>
      match computeKeys fs with
      | .error e => .error e
      | .ok rest => .ok ((f, k) :: rest)

/-- Python's stable sort on the Bool keys `False < True`: entries with key
`false` in original order, then entries with key `true` in original order. -/
def boolKeySort (l : List (String × Bool)) : List String :=
  (l.filter (fun p => !p.2)).map Prod.fst ++ (l.filter (fun p => p.2)).map Prod.fst

/-- `SimpleUpgrader.load_upgrade_script`: read `<path>/<name>.sql`.  The
`raise` after the `return` in the source is unreachable, so a read failure
surfaces as the underlying `IOError`. -/
def load_upgrade_script (env : Env) (script_path script_name : String) :
    Except PyError String :=
  openFile env (pathJoin script_path (script_name ++ ".sql"))

/-- `SimpleUpgrader.load_upgrade_components`: load each listed script, in
order, pairing the rstripped name with the file contents. -/
def load_upgrade_components (env : Env) (upgrade_path : String) :
    List String → Except PyError (List (String × String))
  | [] => .ok []
  | line :: rest =>
    match load_upgrade_script env upgrade_path (pyRstrip line) with
    | .error e => .error e
    | .ok sql =>
      match load_upgrade_components env upgrade_path rest with
      | .error e => .error e
      | .ok comps => .ok ((pyRstrip line, sql) :: comps)

/-- `SimpleUpgrader.scripts_from_manifestfile`: open `<dir>/_manifest` and
load the scripts it lists. -/
def scripts_from_manifestfile (env : Env) (version_dir : String) :
    Except PyError (List (String × String)) :=
  match openFile env (pathJoin version_dir "_manifest") with
  | .error e => .error e
  | .ok manifest => load_upgrade_components env version_dir (pyLines manifest)

/-- `SimpleUpgrader.scripts_from_upgradedir`: list the directory, sort by the
`scriptPrefix` key (a Bool!), strip extensions, and load. -/
def scripts_from_upgradedir (env : Env) (version_dir : String) :
    Except PyError (List (String × String)) :=
  match listdir env version_dir with
  | none => .error .osErr
  | some scripts =>
    match computeKeys scripts with
    | .error e => .error e
    | .ok keyed =>
      load_upgrade_components env version_dir ((boolKeySort keyed).map stripExtPy)

/-- The directory for one version. -/
def versionDir (env : Env) (version : Int) : String :=
  pathJoin env.upgradesPath (toString version)

/-- `SimpleUpgrader.load_upgrade`: try the manifest; the `except IOError`
wraps the whole manifest branch (including the script reads), so ANY errno-2
`IOError` from it triggers the directory-scan fallback, and any other
`IOError` becomes `missing manifest file`. -/
def load_upgrade (env : Env) (version : Int) :
    Except PyError (List (String × String)) :=
  match scripts_from_manifestfile env (versionDir env version) with
  | .ok comps => .ok comps
  | .error (.ioErr e) =>
    if e = 2 then scripts_from_upgradedir env (versionDir env version)
    else .error (.exception "missing manifest file")
  | .error e => .error e

/-- `SimpleUpgrader.apply_upgrade`: execute each script's SQL in order inside
the current transaction; a failing statement raises, leaving the earlier
statements' effects pending in `current`. -/
def apply_upgrade (env : Env) :
    List (String × String) → Conn → Except (PyError × Conn) Conn
  | [], conn => .ok conn
  | (_, sql) :: rest, conn =>
    if env.scriptOk sql then
      apply_upgrade env rest
        { conn with current := { conn.current with log := conn.current.log ++ [sql] } }
    else .error (.exception "execution error", conn)

/-- `SimpleUpgrader.create_version_record`: `INSERT INTO <table> (id) VALUES
(version)`; raises when the table is absent; the driver reports
`Env.insertRowcount version` as the cursor rowcount. -/
def create_version_record (env : Env) (version : Int) (conn : Conn) :
    Except (PyError × Conn) Conn :=
  match conn.current.changelog with
  | none => .error (.exception "no such table", conn)
  | some ids =>
    .ok { conn with
          current := { conn.current with changelog := some (ids ++ [version]) },
          rowcount := env.insertRowcount version }

/-- `SimpleUpgrader.create_version_table`: `CREATE TABLE`, failing when the
table already exists. -/
def create_version_table (conn : Conn) : Except PyError Conn :=
  match conn.current.changelog with
  | some _ => .error (.exception "table exists")
  | none => .ok { conn with current := { conn.current with changelog := some [] } }

/-- `connection.commit()`. -/
def commit (conn : Conn) : Conn := { conn with committed := conn.current }

/-- `connection.rollback()`. -/
def rollback (conn : Conn) : Conn := { conn with current := conn.committed }

/-- One iteration of the `perform_upgrade` loop: load, apply, insert the
changelog record, COMMIT, and only then check the reported rowcount. -/
def upgradeStep (env : Env) (version : Int) (conn : Conn) :
    Except (PyError × Conn) Conn :=
  match load_upgrade env version with
  | .error e => .error (e, conn)
  | .ok scripts =>
    match apply_upgrade env scripts conn with
    | .error ec => .error ec
    | .ok conn1 =>
      match create_version_record env version conn1 with
      | .error ec => .error ec
      | .ok conn2 =>
        let conn3 := commit conn2
        if conn3.rowcount = 1 then .ok conn3
        else .error (.exception "could not record the upgrade", conn3)

/-- The `for version in xrange(active, latest)` loop with the `except` around
it: any step failure rolls back and the whole call returns status 1. -/
def upgradeLoop (env : Env) : List Int → Conn → Int × Conn
  | [], conn => (0, conn)
  | v :: rest, conn =>
    match upgradeStep env v conn with
    | .error (_, c) => (1, rollback c)
    | .ok c => upgradeLoop env rest c

/-- The versions visited by the loop: `active+1, …, latest`. -/
def versionRange (active latest : Int) : List Int :=
  (List.range (latest - active).toNat).map (fun (i : Nat) => active + 1 + (i : Int))

/-- Lines 144–161 of the source: read the active version and, when it is
`-1`, create the changelog table (re-raising on failure) and treat the
active version as `0`. -/
def initState (conn : Conn) : Except PyError (Int × Conn) :=
  if get_active_version conn.current = -1 then
    match create_version_table conn with
    | .error e => .error e
    | .ok c => .ok (0, c)
  else .ok (get_active_version conn.current, conn)

/-- `SimpleUpgrader.perform_upgrade`: the top-level driver.  Errors outside
the upgrade loop (latest-version discovery, table creation) propagate as
exceptions; inside the loop they become rollback plus status 1. -/
def perform_upgrade (env : Env) (conn : Conn) : Except PyError (Int × Conn) :=
  match get_latest_upgrade_version env with
  | .error e => .error e
  | .ok upgrade_version =>
    match initState conn with
    | .error e => .error e
    | .ok (active, conn1) =>
      if active - upgrade_version = 0 then .ok (0, conn1)
      else .ok (upgradeLoop env (versionRange active upgrade_version) conn1)

/-- Status, changelog and active version of a `perform_upgrade` outcome. -/
def runSummary (r : Except PyError (Int × Conn)) :
    Option (Int × Option (List Int) × Int) :=
  match r with
  | .error _ => none
  | .ok (s, c) => some (s, c.current.changelog, get_active_version c.current)

/-- `runSummary` plus whether the connection ended with no uncommitted
changes (`current = committed`). -/
def runReport (r : Except PyError (Int × Conn)) :
    Option (Int × Option (List Int) × Int × Bool) :=
  match r with
  | .error _ => none
  | .ok (s, c) =>
    some (s, c.current.changelog, get_active_version c.current,
          decide (c.current = c.committed))

/-! ## Concrete environments and connections used as test inputs -/

/-- A fresh connection whose changelog table exists and is empty. -/
def connInit : Conn := ⟨⟨some [], []⟩, ⟨some [], []⟩, -1⟩

/-- A fresh connection on a database with no changelog table. -/
def connNone : Conn := ⟨⟨none, []⟩, ⟨none, []⟩, -1⟩

/-- A clean connection on a database at active version 2. -/
def connAt2 : Conn := ⟨⟨some [1, 2], []⟩, ⟨some [1, 2], []⟩, -1⟩

/-- A clean connection on a database at active version 3. -/
def connAt3 : Conn := ⟨⟨some [1, 2, 3], []⟩, ⟨some [1, 2, 3], []⟩, -1⟩

/-- Ten version directories `1`–`10`, each with a single script. -/
def env10 : Env :=
  { upgradesPath := "u"
    dirListings :=
      [("u", ["1", "2", "3", "4", "5", "6", "7", "8", "9", "10"]),
       ("u/1", ["1-a.sql"]), ("u/2", ["1-a.sql"]), ("u/3", ["1-a.sql"]),
       ("u/4", ["1-a.sql"]), ("u/5", ["1-a.sql"]), ("u/6", ["1-a.sql"]),
       ("u/7", ["1-a.sql"]), ("u/8", ["1-a.sql"]), ("u/9", ["1-a.sql"]),
       ("u/10", ["1-a.sql"])]
    fileEntries :=
      [("u/1/1-a.sql", .readable "S1"), ("u/2/1-a.sql", .readable "S2"),
       ("u/3/1-a.sql", .readable "S3"), ("u/4/1-a.sql", .readable "S4"),
       ("u/5/1-a.sql", .readable "S5"), ("u/6/1-a.sql", .readable "S6"),
       ("u/7/1-a.sql", .readable "S7"), ("u/8/1-a.sql", .readable "S8"),
       ("u/9/1-a.sql", .readable "S9"), ("u/10/1-a.sql", .readable "S10")]
    scriptOk := fun _ => true
    insertRowcount := fun _ => 1 }

/-- Three version directories listed by the OS in the order `2, 1, 3`. -/
def envThree : Env :=
  { upgradesPath := "u"
    dirListings :=
      [("u", ["2", "1", "3"]),
       ("u/1", ["1-a.sql"]), ("u/2", ["1-a.sql"]), ("u/3", ["1-a.sql"])]
    fileEntries :=
      [("u/1/1-a.sql", .readable "S1"), ("u/2/1-a.sql", .readable "S2"),
       ("u/3/1-a.sql", .readable "S3")]
    scriptOk := fun _ => true
    insertRowcount := fun _ => 1 }

/-- A version directory holding `10-create.sql` and `2-seed.sql`, listed in
that order by the OS, with no manifest. -/
def envSeed : Env :=
  { upgradesPath := "u"
    dirListings := [("d", ["10-create.sql", "2-seed.sql"])]
    fileEntries :=
      [("d/10-create.sql", .readable "CREATE10"), ("d/2-seed.sql", .readable "SEED2")]
    scriptOk := fun _ => true
    insertRowcount := fun _ => 1 }

/-- Versions `1`–`3` where version 3 has two scripts and the second one
fails to execute. -/
def envFailV3 : Env :=
  { upgradesPath := "u"
    dirListings :=
      [("u", ["1", "2", "3"]),
       ("u/1", ["1-a.sql"]), ("u/2", ["1-a.sql"]), ("u/3", ["1-a.sql", "2-b.sql"])]
    fileEntries :=
      [("u/1/1-a.sql", .readable "S1"), ("u/2/1-a.sql", .readable "S2"),
       ("u/3/1-a.sql", .readable "S3A"), ("u/3/2-b.sql", .readable "S3B")]
    scriptOk := fun s => !(s == "S3B")
    insertRowcount := fun _ => 1 }

/-- Versions `1`–`3` whose scripts all succeed, but the database driver
reports rowcount `0` for the changelog insert of version 3. -/
def envRowcount0 : Env :=
  { upgradesPath := "u"
    dirListings :=
      [("u", ["1", "2", "3"]),
       ("u/1", ["1-a.sql"]), ("u/2", ["1-a.sql"]), ("u/3", ["1-a.sql"])]
    fileEntries :=
      [("u/1/1-a.sql", .readable "S1"), ("u/2/1-a.sql", .readable "S2"),
       ("u/3/1-a.sql", .readable "S3")]
    scriptOk := fun _ => true
    insertRowcount := fun v => if v = 3 then 0 else 1 }

/-- A version directory whose manifest lists a script whose file is absent
(`a.sql` does not exist; `b.sql` does). -/
def envNoScript : Env :=
  { upgradesPath := "u"
    dirListings := [("u/1", ["_manifest"])]
    fileEntries := [("u/1/_manifest", .readable "a\n"), ("u/1/b.sql", .readable "SQLB")]
    scriptOk := fun _ => true
    insertRowcount := fun _ => 1 }

/-- A single upgrades directory containing only version `2`. -/
def envOnly2 : Env :=
  { upgradesPath := "u"
    dirListings := [("u", ["2"]), ("u/2", ["1-a.sql"])]
    fileEntries := [("u/2/1-a.sql", .readable "S2")]
    scriptOk := fun _ => true
    insertRowcount := fun _ => 1 }

/-- A version directory containing a file with prefix `0` before the hyphen. -/
def envZero : Env :=
  { upgradesPath := "u"
    dirListings := [("d", ["0-x.sql"])]
    fileEntries := [("d/0-x.sql", .readable "ZERO")]
    scriptOk := fun _ => true
    insertRowcount := fun _ => 1 }

/-- A version directory with a manifest listing `b`, `a`, `c` in that order. -/
def envBAC : Env :=
  { upgradesPath := "u"
    dirListings := [("u/1", ["_manifest", "a.sql", "b.sql", "c.sql"])]
    fileEntries :=
      [("u/1/_manifest", .readable "b\na\nc\n"),
       ("u/1/a.sql", .readable "A"), ("u/1/b.sql", .readable "B"),
       ("u/1/c.sql", .readable "C")]
    scriptOk := fun _ => true
    insertRowcount := fun _ => 1 }

/-- A version directory whose manifest exists but cannot be opened
(errno 13, permission denied). -/
def envPerm : Env :=
  { upgradesPath := "u"
    dirListings := [("u/1", ["_manifest"])]
    fileEntries := [("u/1/_manifest", .unreadable 13)]
    scriptOk := fun _ => true
    insertRowcount := fun _ => 1 }

/-- An upgrades root with no version directories at all. -/
def envEmpty : Env :=
  { upgradesPath := "u"
    dirListings := [("u", [])]
    fileEntries := []
    scriptOk := fun _ => true
    insertRowcount := fun _ => 1 }

/-! ## Properties of the string ordering used by `list.sort()` -/

theorem lexLe_total : ∀ as bs : List Char, lexLe as bs = true ∨ lexLe bs as = true
  | [], _ => Or.inl rfl
  | _ :: _, [] => Or.inr rfl
  | a :: as, b :: bs => by
    rcases lt_trichotomy a b with h | h | h
    · exact Or.inl (by simp [lexLe, h])
    · subst h
      have hirr : ¬ a < a := lt_irrefl a
      rcases lexLe_total as bs with h' | h'
      · exact Or.inl (by simp [lexLe, hirr]; exact h')
      · exact Or.inr (by simp [lexLe, hirr]; exact h')
    · exact Or.inr (by simp [lexLe, h])

theorem lexLe_trans : ∀ as bs cs : List Char,
    lexLe as bs = true → lexLe bs cs = true → lexLe as cs = true
  | [], _, _, _, _ => rfl
  | _ :: _, [], _, h, _ => by simp [lexLe] at h
  | _ :: _, _ :: _, [], _, h => by simp [lexLe] at h
  | a :: as, b :: bs, c :: cs, h1, h2 => by
    rcases lt_trichotomy a b with hab | hab | hab
    · rcases lt_trichotomy b c with hbc | hbc | hbc
      · simp [lexLe, lt_trans hab hbc]
      · subst hbc; simp [lexLe, hab]
      · exfalso; simp [lexLe, lt_asymm hbc, hbc] at h2
    · subst hab
      rcases lt_trichotomy a c with hac | hac | hac
      · simp [lexLe, hac]
      · subst hac
        have hirr : ¬ a < a := lt_irrefl a
        simp [lexLe, hirr] at h1 h2 ⊢
        exact lexLe_trans as bs cs h1 h2
      · exfalso; simp [lexLe, lt_asymm hac, hac] at h2
    · exfalso; simp [lexLe, lt_asymm hab, hab] at h1

theorem lexLe_antisymm : ∀ as bs : List Char,
    lexLe as bs = true → lexLe bs as = true → as = bs
  | [], [], _, _ => rfl
  | [], _ :: _, _, h => by simp [lexLe] at h
  | _ :: _, [], h, _ => by simp [lexLe] at h
  | a :: as, b :: bs, h1, h2 => by
    rcases lt_trichotomy a b with hab | hab | hab
    · exfalso; simp [lexLe, lt_asymm hab, hab] at h2
    · subst hab
      have hirr : ¬ a < a := lt_irrefl a
      simp [lexLe, hirr] at h1 h2
      rw [lexLe_antisymm as bs h1 h2]
    · exfalso; simp [lexLe, lt_asymm hab, hab] at h1

theorem pyLeP_total (a b : String) : pyLeP a b ∨ pyLeP b a :=
  lexLe_total a.data b.data

theorem pyLeP_trans {a b c : String} (h1 : pyLeP a b) (h2 : pyLeP b c) : pyLeP a c :=
  lexLe_trans a.data b.data c.data h1 h2

theorem pyLeP_antisymm {a b : String} (h1 : pyLeP a b) (h2 : pyLeP b a) : a = b := by
  cases a with | mk da =>
  cases b with | mk db =>
  exact congrArg String.mk (lexLe_antisymm da db h1 h2)

/-- `sortStrings` sends any permutation of a sorted target to the target. -/
theorem sortStrings_eq {l tgt : List String} (hp : l.Perm tgt)
    (hs : List.Sorted pyLeP tgt) : sortStrings l = tgt := by
  haveI : IsTotal String pyLeP := ⟨pyLeP_total⟩
  haveI : IsTrans String pyLeP := ⟨fun _ _ _ => pyLeP_trans⟩
  haveI : IsAntisymm String pyLeP := ⟨fun _ _ => pyLeP_antisymm⟩
  exact List.eq_of_perm_of_sorted ((List.perm_insertionSort pyLeP l).trans hp)
    (List.sorted_insertionSort pyLeP l) hs

/-- For at most nine versions the directory names sort in numeric order. -/
theorem digitStrings_sorted {n : Nat} (h : n ≤ 9) :
    List.Sorted pyLeP (digitStrings n) := by
  interval_cases n <;> decide

theorem digitStrings_getLast {n : Nat} (h : 1 ≤ n) :
    (digitStrings n).getLast? = some (toString n) := by
  obtain ⟨m, rfl⟩ : ∃ m, n = m + 1 := ⟨n - 1, by omega⟩
  unfold digitStrings
  rw [List.range_succ, List.map_append]
  simp [List.getLast?_concat]

theorem pyInt_toString_digit {n : Nat} (h1 : 1 ≤ n) (h9 : n ≤ 9) :
    pyInt? (toString n) = some (n : Int) := by
  interval_cases n <;> decide

/-! ## Properties of the version range and of `SELECT MAX(id)` -/

theorem versionRange_nil {a b : Int} (h : b ≤ a) : versionRange a b = [] := by
  unfold versionRange
  have h0 : (b - a).toNat = 0 := by omega
  rw [h0]
  rfl

theorem versionRange_append {x y z : Int} (hxy : x ≤ y) (hyz : y ≤ z) :
    versionRange x y ++ versionRange y z = versionRange x z := by
  unfold versionRange
  have h1 : (z - x).toNat = (y - x).toNat + (z - y).toNat := by omega
  rw [h1, List.range_add, List.map_append, List.map_map]
  congr 1
  apply List.map_congr_left
  intro i _
  simp only [Function.comp_apply]
  have h2 : ((y - x).toNat : Int) = y - x := by omega
  push_cast
  omega

theorem versionRange_cons {x z : Int} (h : x < z) :
    versionRange x z = (x + 1) :: versionRange (x + 1) z := by
  unfold versionRange
  have h1 : (z - x).toNat = 1 + (z - (x + 1)).toNat := by omega
  rw [h1, List.range_add, List.map_append, List.map_map]
  have h2 : List.range 1 = [0] := rfl
  rw [h2]
  simp only [List.map_cons, List.map_nil, Nat.cast_zero, List.singleton_append]
  congr 1
  · omega
  · apply List.map_congr_left
    intro i _
    simp only [Function.comp_apply]
    push_cast
    omega

theorem mem_versionRange {x z v : Int} : v ∈ versionRange x z ↔ x < v ∧ v ≤ z := by
  unfold versionRange
  simp only [List.mem_map, List.mem_range]
  constructor
  · rintro ⟨i, hi, rfl⟩
    omega
  · rintro ⟨h1, h2⟩
    exact ⟨(v - x - 1).toNat, by omega, by omega⟩

theorem foldl_max_self_or_mem :
    ∀ (xs : List Int) (x : Int), xs.foldl max x = x ∨ xs.foldl max x ∈ xs
  | [], _ => Or.inl rfl
  | y :: ys, x => by
    simp only [List.foldl_cons]
    rcases foldl_max_self_or_mem ys (max x y) with h | h
    · rcases max_choice x y with h' | h'
      · rw [h, h']
        exact Or.inl rfl
      · rw [h, h']
        exact Or.inr (List.mem_cons_self _ _)
    · exact Or.inr (List.mem_cons_of_mem _ h)

theorem init_le_foldl_max :
    ∀ (xs : List Int) (x : Int), x ≤ xs.foldl max x
  | [], _ => le_refl _
  | y :: ys, x => by
    simp only [List.foldl_cons]
    exact le_trans (le_max_left x y) (init_le_foldl_max ys (max x y))

theorem mem_le_foldl_max :
    ∀ (xs : List Int) (x y : Int), y ∈ xs → y ≤ xs.foldl max x
  | [], _, _, h => by cases h
  | z :: zs, x, y, h => by
    simp only [List.foldl_cons]
    rcases List.mem_cons.mp h with rfl | h'
    · exact le_trans (le_max_right x y) (init_le_foldl_max zs (max x y))
    · exact mem_le_foldl_max zs (max x z) y h'

theorem maxList_eq {l : List Int} {m : Int} (hm : m ∈ l) (hall : ∀ y ∈ l, y ≤ m) :
    maxList l = some m := by
  cases l with
  | nil => cases hm
  | cons x xs =>
    simp only [maxList, Option.some_inj]
    have hle : xs.foldl max x ≤ m := by
      rcases foldl_max_self_or_mem xs x with h | h
      · rw [h]
        exact hall x (List.mem_cons_self _ _)
      · exact hall _ (List.mem_cons_of_mem _ h)
    have hge : m ≤ xs.foldl max x := by
      rcases List.mem_cons.mp hm with rfl | h
      · exact init_le_foldl_max xs m
      · exact mem_le_foldl_max xs x m h
    omega

theorem queryMax_some {db : DB} {ids : List Int} (hc : db.changelog = some ids) :
    queryMax db = .ok (maxList ids) := by
  unfold queryMax
  rw [hc]

theorem get_active_version_empty {db : DB} (hc : db.changelog = some []) :
    get_active_version db = 0 := by
  unfold get_active_version
  rw [queryMax_some hc]
  rfl

theorem get_active_version_range {db : DB} {k : Int} (h0 : 0 ≤ k)
    (hc : db.changelog = some (versionRange 0 k)) : get_active_version db = k := by
  rcases eq_or_lt_of_le h0 with h | h
  · rw [get_active_version_empty (by rw [hc, versionRange_nil (by omega)]), ← h]
  · unfold get_active_version
    rw [queryMax_some hc,
      maxList_eq (mem_versionRange.mpr ⟨by omega, le_refl _⟩)
        (fun y hy => (mem_versionRange.mp hy).2)]
    rfl

/-! ## Properties of the loader and of the upgrade loop -/

theorem load_upgrade_components_names (env : Env) (p : String) :
    ∀ (ls : List String) (comps : List (String × String)),
      load_upgrade_components env p ls = .ok comps →
      comps.map Prod.fst = ls.map pyRstrip
  | [], comps, h => by
    simp only [load_upgrade_components] at h
    cases h
    rfl
  | line :: rest, comps, h => by
    simp only [load_upgrade_components] at h
    cases hscript : load_upgrade_script env p (pyRstrip line) with
    | error e => rw [hscript] at h; cases h
    | ok sql =>
      rw [hscript] at h
      cases hrest : load_upgrade_components env p rest with
      | error e => rw [hrest] at h; cases h
      | ok comps' =>
        rw [hrest] at h
        cases h
        simp only [List.map_cons]
        rw [load_upgrade_components_names env p rest comps' hrest]

theorem apply_upgrade_ok (env : Env) :
    ∀ (s : List (String × String)) (conn : Conn),
      (∀ p ∈ s, env.scriptOk p.2 = true) →
      ∃ c, apply_upgrade env s conn = .ok c ∧
        c.current.changelog = conn.current.changelog ∧
        c.committed = conn.committed ∧ c.rowcount = conn.rowcount
  | [], conn, _ => ⟨conn, rfl, rfl, rfl, rfl⟩
  | (nm, sql) :: rest, conn, h => by
    have hs : env.scriptOk sql = true := h (nm, sql) (List.mem_cons_self _ _)
    simp only [apply_upgrade, hs, if_true]
    obtain ⟨c, hc, h1, h2, h3⟩ :=
      apply_upgrade_ok env rest
        { conn with current := { conn.current with log := conn.current.log ++ [sql] } }
        (fun p hp => h p (List.mem_cons_of_mem _ hp))
    exact ⟨c, hc, h1, h2, h3⟩

theorem apply_upgrade_fail (env : Env) :
    ∀ (good : List (String × String)) (b : String × String)
      (rest : List (String × String)) (conn : Conn),
      (∀ p ∈ good, env.scriptOk p.2 = true) → env.scriptOk b.2 = false →
      ∃ c, apply_upgrade env (good ++ b :: rest) conn =
          .error (.exception "execution error", c) ∧
        c.committed = conn.committed
  | [], b, rest, conn, _, hb => by
    obtain ⟨nm, sql⟩ := b
    simp only at hb
    simp only [List.nil_append, apply_upgrade, hb]
    exact ⟨conn, rfl, rfl⟩
  | (nm, sql) :: good, b, rest, conn, h, hb => by
    have hs : env.scriptOk sql = true := h (nm, sql) (List.mem_cons_self _ _)
    simp only [List.cons_append, apply_upgrade, hs, if_true]
    exact apply_upgrade_fail env good b rest _
      (fun p hp => h p (List.mem_cons_of_mem _ hp)) hb

theorem upgradeStep_ok (env : Env) (v : Int) (conn : Conn) (l : List Int)
    (s : List (String × String))
    (hc : conn.current.changelog = some l)
    (hload : load_upgrade env v = .ok s)
    (hok : ∀ p ∈ s, env.scriptOk p.2 = true)
    (hrow : env.insertRowcount v = 1) :
    ∃ c, upgradeStep env v conn = .ok c ∧
      c.current.changelog = some (l ++ [v]) ∧ c.committed = c.current := by
  unfold upgradeStep
  simp only [hload]
  obtain ⟨c1, hc1, e1, _, _⟩ := apply_upgrade_ok env s conn hok
  simp only [hc1]
  unfold create_version_record
  simp only [e1.trans hc]
  simp only [commit, hrow]
  norm_num

theorem upgradeStep_fail (env : Env) (v : Int) (conn : Conn)
    (good : List (String × String)) (b : String × String)
    (rest : List (String × String))
    (hload : load_upgrade env v = .ok (good ++ b :: rest))
    (hgood : ∀ p ∈ good, env.scriptOk p.2 = true)
    (hb : env.scriptOk b.2 = false) :
    ∃ e c, upgradeStep env v conn = .error (e, c) ∧ c.committed = conn.committed := by
  unfold upgradeStep
  simp only [hload]
  obtain ⟨c, hc, hcom⟩ := apply_upgrade_fail env good b rest conn hgood hb
  simp only [hc]
  exact ⟨_, c, rfl, hcom⟩

theorem upgradeLoop_ok (env : Env) :
    ∀ (vs : List Int) (conn : Conn) (l : List Int),
      conn.current.changelog = some l →
      conn.committed = conn.current →
      (∀ v ∈ vs, (∃ s, load_upgrade env v = .ok s ∧ ∀ p ∈ s, env.scriptOk p.2 = true) ∧
        env.insertRowcount v = 1) →
      ∃ c, upgradeLoop env vs conn = (0, c) ∧
        c.current.changelog = some (l ++ vs) ∧ c.committed = c.current
  | [], conn, l, hc, hcc, _ => ⟨conn, rfl, by simpa using hc, hcc⟩
  | v :: vs, conn, l, hc, hcc, h => by
    obtain ⟨⟨s, hload, hok⟩, hrow⟩ := h v (List.mem_cons_self _ _)
    obtain ⟨c1, hstep, b1, b2⟩ := upgradeStep_ok env v conn l s hc hload hok hrow
    simp only [upgradeLoop]
    rw [hstep]
    obtain ⟨c, hloop, d1, d2⟩ :=
      upgradeLoop_ok env vs c1 (l ++ [v]) b1 b2
        (fun w hw => h w (List.mem_cons_of_mem _ hw))
    refine ⟨c, hloop, ?_, d2⟩
    rw [d1]
    simp

theorem upgradeLoop_fail (env : Env) :
    ∀ (pre : List Int) (v : Int) (post : List Int) (conn : Conn) (l : List Int),
      conn.current.changelog = some l →
      conn.committed = conn.current →
      (∀ w ∈ pre, (∃ s, load_upgrade env w = .ok s ∧ ∀ p ∈ s, env.scriptOk p.2 = true) ∧
        env.insertRowcount w = 1) →
      (∃ good b rest, load_upgrade env v = .ok (good ++ b :: rest) ∧
        (∀ p ∈ good, env.scriptOk p.2 = true) ∧ env.scriptOk b.2 = false) →
      ∃ c, upgradeLoop env (pre ++ v :: post) conn = (1, c) ∧
        c.current.changelog = some (l ++ pre) ∧ c.current = c.committed
  | [], v, post, conn, l, hc, hcc, _, hfail => by
    obtain ⟨good, b, rest, hload, hgood, hb⟩ := hfail
    obtain ⟨e, c, hstep, hcom⟩ := upgradeStep_fail env v conn good b rest hload hgood hb
    simp only [List.nil_append, upgradeLoop]
    rw [hstep]
    refine ⟨rollback c, rfl, ?_, rfl⟩
    simp only [rollback, hcom, hcc, List.append_nil]
    exact hc
  | w :: pre, v, post, conn, l, hc, hcc, hpre, hfail => by
    obtain ⟨⟨s, hload, hok⟩, hrow⟩ := hpre w (List.mem_cons_self _ _)
    obtain ⟨c1, hstep, b1, b2⟩ := upgradeStep_ok env w conn l s hc hload hok hrow
    simp only [List.cons_append, upgradeLoop]
    rw [hstep]
    obtain ⟨c, hl2, d1, d2⟩ :=
      upgradeLoop_fail env pre v post c1 (l ++ [w]) b1 b2
        (fun u hu => hpre u (List.mem_cons_of_mem _ hu)) hfail
    refine ⟨c, hl2, ?_, d2⟩
    rw [d1]
    simp

theorem upgradeStep_rowcount (env : Env) (v : Int) (conn : Conn) (l : List Int)
    (s : List (String × String))
    (hc : conn.current.changelog = some l)
    (hload : load_upgrade env v = .ok s)
    (hok : ∀ p ∈ s, env.scriptOk p.2 = true)
    (hrow : env.insertRowcount v ≠ 1) :
    ∃ e c, upgradeStep env v conn = .error (e, c) ∧
      c.current.changelog = some (l ++ [v]) ∧ c.committed = c.current := by
  unfold upgradeStep
  simp only [hload]
  obtain ⟨c1, hc1, e1, _, _⟩ := apply_upgrade_ok env s conn hok
  simp only [hc1]
  unfold create_version_record
  simp only [e1.trans hc]
  simp only [commit, if_neg hrow]
  exact ⟨_, _, rfl, rfl, rfl⟩

theorem upgradeLoop_rowcount_fail (env : Env) :
    ∀ (pre : List Int) (v : Int) (post : List Int) (conn : Conn) (l : List Int),
      conn.current.changelog = some l →
      conn.committed = conn.current →
      (∀ w ∈ pre, (∃ s, load_upgrade env w = .ok s ∧ ∀ p ∈ s, env.scriptOk p.2 = true) ∧
        env.insertRowcount w = 1) →
      (∃ s, load_upgrade env v = .ok s ∧ ∀ p ∈ s, env.scriptOk p.2 = true) →
      env.insertRowcount v ≠ 1 →
      ∃ c, upgradeLoop env (pre ++ v :: post) conn = (1, c) ∧
        c.current.changelog = some (l ++ pre ++ [v]) ∧ c.current = c.committed
  | [], v, post, conn, l, hc, hcc, _, ⟨s, hload, hok⟩, hrow => by
    obtain ⟨e, c, hstep, d1, d2⟩ := upgradeStep_rowcount env v conn l s hc hload hok hrow
    simp only [List.nil_append, upgradeLoop]
    rw [hstep]
    refine ⟨rollback c, rfl, ?_, ?_⟩
    · simp only [rollback, d2, List.append_nil]
      exact d1
    · simp [rollback]
  | w :: pre, v, post, conn, l, hc, hcc, hpre, hfail, hrow => by
    obtain ⟨⟨s, hload, hok⟩, hrw⟩ := hpre w (List.mem_cons_self _ _)
    obtain ⟨c1, hstep, b1, b2⟩ := upgradeStep_ok env w conn l s hc hload hok hrw
    simp only [List.cons_append, upgradeLoop]
    rw [hstep]
    obtain ⟨c, hl2, d1, d2⟩ :=
      upgradeLoop_rowcount_fail env pre v post c1 (l ++ [w]) b1 b2
        (fun u hu => hpre u (List.mem_cons_of_mem _ hu)) hfail hrow
    refine ⟨c, hl2, ?_, d2⟩
    rw [d1]
    simp

/-! ## Driver-level helper lemmas -/

theorem get_latest_digits (env : Env) {ds : List String} {n : Nat}
    (h1 : 1 ≤ n) (h9 : n ≤ 9)
    (hds : listdir env env.upgradesPath = some ds)
    (hperm : ds.Perm (digitStrings n)) :
    get_latest_upgrade_version env = .ok (n : Int) := by
  unfold get_latest_upgrade_version get_available_upgrades
  simp only [hds]
  rw [sortStrings_eq hperm (digitStrings_sorted h9)]
  simp only [digitStrings_getLast h1, pyInt_toString_digit h1 h9]

theorem initState_ready {conn : Conn} (ha : get_active_version conn.current ≠ -1) :
    initState conn = .ok (get_active_version conn.current, conn) := by
  unfold initState
  rw [if_neg ha]

theorem initState_fresh {conn : Conn} (hc : conn.current.changelog = none) :
    initState conn =
      .ok (0, { conn with current := { conn.current with changelog := some [] } }) := by
  have ha : get_active_version conn.current = -1 := by
    unfold get_active_version queryMax
    simp only [hc]
    rfl
  unfold initState
  rw [if_pos ha]
  unfold create_version_table
  simp only [hc]

/-! ## The claims -/

/-- C4: `get_active_version` returns `-1` whenever the `SELECT MAX(id)` query
raises (any query failure at all, the missing changelog table being one
cause), returns `0` when the query succeeds with a NULL maximum (table
present but empty), and otherwise returns the integer maximum id recorded in
the changelog table. -/
theorem C4_get_active_version (db : DB) (q : Except PyError (Option Int)) :
    ((∃ e, q = .error e) → get_active_version_from q = -1) ∧
    (db.changelog = none → get_active_version db = -1) ∧
    (db.changelog = some [] → get_active_version db = 0) ∧
    (∀ ids m, db.changelog = some ids → maxList ids = some m →
      get_active_version db = m) := by
  refine ⟨?_, ?_, ?_, ?_⟩
  · rintro ⟨e, rfl⟩
    rfl
  · intro hc
    unfold get_active_version queryMax
    simp only [hc]
    rfl
  · intro hc
    exact get_active_version_empty hc
  · intro ids m hc hm
    unfold get_active_version
    rw [queryMax_some hc, hm]
    rfl

/-- C4 witness: the three outcomes at concrete inputs. -/
theorem C4_witness :
    get_active_version_from (.error .osErr) = -1 ∧
    get_active_version ⟨none, []⟩ = -1 ∧
    get_active_version ⟨some [], []⟩ = 0 ∧
    get_active_version ⟨some [2, 1], []⟩ = 2 :=
  ⟨(C4_get_active_version ⟨none, []⟩ (.error .osErr)).1 ⟨.osErr, rfl⟩,
   (C4_get_active_version ⟨none, []⟩ (.error .osErr)).2.1 rfl,
   (C4_get_active_version ⟨some [], []⟩ (.error .osErr)).2.2.1 rfl,
   (C4_get_active_version ⟨some [2, 1], []⟩ (.error .osErr)).2.2.2 [2, 1] 2 rfl rfl⟩

/-- C6: calling `perform_upgrade` when the recorded active version already
equals the latest available upgrade version applies no scripts, leaves the
connection (changelog included) completely unchanged, and returns success
status 0 — so a second call immediately after a successful one is a no-op. -/
theorem C6_already_latest (env : Env) (conn : Conn) (latest : Int)
    (ha : get_active_version conn.current ≠ -1)
    (hl : get_latest_upgrade_version env = .ok latest)
    (heq : get_active_version conn.current = latest) :
    perform_upgrade env conn = .ok (0, conn) := by
  unfold perform_upgrade
  rw [hl, initState_ready ha]
  simp only [heq, sub_self, if_true]

/-- C6 witness: a database at version 2 with latest available version 2. -/
theorem C6_witness : perform_upgrade envOnly2 connAt2 = .ok (0, connAt2) :=
  C6_already_latest envOnly2 connAt2 2 (by decide) (by rfl) (by decide)

/-- C9: on a fresh database (changelog table absent, so the active version
reads as -1) `perform_upgrade` treats the condition as recoverable: it
creates the changelog table, treats the active version as 0, and — when no
upgrade directories exist — returns success, after which the active version
reads as 0. -/
theorem C9_fresh_database (env : Env) (conn : Conn)
    (hfresh : conn.current.changelog = none)
    (hdirs : listdir env env.upgradesPath = some []) :
    runSummary (perform_upgrade env conn) = some (0, some [], 0) := by
  have hl : get_latest_upgrade_version env = .ok 0 := by
    unfold get_latest_upgrade_version get_available_upgrades
    simp only [hdirs]
    rfl
  unfold perform_upgrade
  rw [hl, initState_fresh hfresh]
  simp only [sub_self, if_true, runSummary]
  rw [get_active_version_empty rfl]

/-- C9 witness: a fresh database and an empty upgrades root. -/
theorem C9_witness :
    runSummary (perform_upgrade envEmpty connNone) = some (0, some [], 0) :=
  C9_fresh_database envEmpty connNone rfl rfl

/-- C10 (implicit): when the recorded active version is strictly greater
than the latest available upgrade version, `perform_upgrade` applies no
scripts, inserts no changelog records (the connection is unchanged), and
returns success status 0, because the loop range is empty. -/
theorem C10_active_ahead (env : Env) (conn : Conn) (latest : Int)
    (ha : 0 ≤ get_active_version conn.current)
    (hl : get_latest_upgrade_version env = .ok latest)
    (hgt : latest < get_active_version conn.current) :
    perform_upgrade env conn = .ok (0, conn) := by
  unfold perform_upgrade
  rw [hl, initState_ready (by omega)]
  have hne : get_active_version conn.current - latest ≠ 0 := by omega
  simp only [if_neg hne,
    versionRange_nil (show latest ≤ get_active_version conn.current by omega)]
  rfl

/-- C10 witness: a database at version 3 when only version 2 is available. -/
theorem C10_witness : perform_upgrade envOnly2 connAt3 = .ok (0, connAt3) :=
  C10_active_ahead envOnly2 connAt3 2 (by decide) (by rfl) (by decide)

/-- C1 (counterexample): with version directories `1..10` present and a
database at active version 0, one successful `perform_upgrade` call returns
status 0 but leaves the active version at 9 with changelog ids `1..9` — not
10 with ids `1..10` as the claim requires — because the directory names are
sorted as strings and `"9"` sorts last. -/
theorem C1_counterexample :
    runReport (perform_upgrade env10 connInit) =
      some (0, some [1, 2, 3, 4, 5, 6, 7, 8, 9], 9, true) ∧
    (9 : Int) ≠ 10 :=
  ⟨rfl, by decide⟩

/-- C1 (amended): for an upgrade set whose version directories are `1..N`
with `N ≤ 9` (so string sorting agrees with numeric order), one successful
`perform_upgrade` call on a database whose active version is 0 returns
status 0, brings the active version to `N`, and leaves exactly `N` changelog
records with ids `1..N`. -/
theorem C1_amended (env : Env) (conn : Conn) (N : Nat) (ds : List String)
    (h1 : 1 ≤ N) (h9 : N ≤ 9)
    (hds : listdir env env.upgradesPath = some ds)
    (hperm : ds.Perm (digitStrings N))
    (hload : ∀ v : Int, 1 ≤ v → v ≤ (N : Int) →
      ∃ s, load_upgrade env v = .ok s ∧ ∀ p ∈ s, env.scriptOk p.2 = true)
    (hrow : ∀ v : Int, env.insertRowcount v = 1)
    (hchg : conn.current.changelog = some [])
    (hcc : conn.committed = conn.current) :
    runReport (perform_upgrade env conn) =
      some (0, some (versionRange 0 (N : Int)), (N : Int), true) := by
  have hl := get_latest_digits env h1 h9 hds hperm
  have ha0 : get_active_version conn.current = 0 := get_active_version_empty hchg
  have hne : (0 : Int) - (N : Int) ≠ 0 := by omega
  unfold perform_upgrade
  rw [hl, initState_ready (by omega)]
  simp only [ha0, if_neg hne]
  obtain ⟨c, hloop, d1, d2⟩ :=
    upgradeLoop_ok env (versionRange 0 (N : Int)) conn [] hchg hcc
      (fun v hv => by
        obtain ⟨hv1, hv2⟩ := mem_versionRange.mp hv
        exact ⟨hload v (by omega) hv2, hrow v⟩)
  rw [hloop]
  simp only [runReport]
  rw [List.nil_append] at d1
  rw [d1, get_active_version_range (by omega) d1]
  simp [d2]

/-- C1 witness: three version directories listed out of order upgrade a
fresh initialized database to version 3 with changelog ids 1, 2, 3. -/
theorem C1_witness :
    runReport (perform_upgrade envThree connInit) =
      some (0, some (versionRange 0 3), 3, true) := by
  have h := C1_amended envThree connInit 3 ["2", "1", "3"]
    (by decide) (by decide) rfl (by decide)
    (fun v h1 h3 => by
      interval_cases v
      · exact ⟨_, rfl, by decide⟩
      · exact ⟨_, rfl, by decide⟩
      · exact ⟨_, rfl, by decide⟩)
    (fun _ => rfl) rfl rfl
  exact_mod_cast h

/-- C2: contrary to the spec, `scripts_from_upgradedir` does not order
scripts numerically by prefix: `script_prefix` returns the boolean
`int(prefix) > 0`, so both `10-create.sql` and `2-seed.sql` get the sort key
`True`, the stable sort keeps the directory-listing order, and `10-create`
is applied before `2-seed`. -/
theorem C2_boolean_sort_key :
    scriptPrefix "10-create.sql" = .ok true ∧
    scriptPrefix "2-seed.sql" = .ok true ∧
    scripts_from_upgradedir envSeed "d" =
      .ok [("10-create", "CREATE10"), ("2-seed", "SEED2")] :=
  ⟨rfl, rfl, rfl⟩

/-- C3 (counterexample): when version 3's scripts all succeed but the driver
reports rowcount 0 for the changelog insert, the check runs only after
`commit()`, so `perform_upgrade` returns status 1 yet nothing is undone: the
changelog keeps id 3, the active version is 3 (not 2), and version 3's
statement stays in the committed log. -/
theorem C3_counterexample :
    runReport (perform_upgrade envRowcount0 connAt2) =
      some (1, some [1, 2, 3], 3, true) ∧
    (perform_upgrade envRowcount0 connAt2).toOption.map
      (fun p => p.2.committed.log) = some ["S3"] :=
  ⟨rfl, rfl⟩

/-- C3 (amended): take a run whose versions up to `v-1` commit successfully
while version `v` fails, with the two failure modes the claim enumerates.
First mode — a statement-execution error during `apply_upgrade`:
`perform_upgrade` rolls the transaction back so that version `v`'s
statements and changelog record are undone, all previously committed
versions remain applied (the active version equals `v-1`, e.g. 2 when
version 3's second statement fails), the connection holds no uncommitted
changes, and status 1 is returned.  Second mode — the changelog insert does
not affect exactly one row (the driver reports rowcount ≠ 1): status 1 is
likewise returned, but because the check runs only after
`connection.commit()`, the rollback undoes nothing: version `v`'s
statements and changelog record remain applied and the active version
equals `v`. -/
theorem C3_amended (env : Env) (conn : Conn) (a v latest : Int)
    (h0 : 0 ≤ a) (hav : a < v) (hvl : v ≤ latest)
    (hl : get_latest_upgrade_version env = .ok latest)
    (hchg : conn.current.changelog = some (versionRange 0 a))
    (hcc : conn.committed = conn.current)
    (hpre : ∀ w : Int, a < w → w < v →
      (∃ s, load_upgrade env w = .ok s ∧ ∀ p ∈ s, env.scriptOk p.2 = true) ∧
      env.insertRowcount w = 1) :
    (∀ good (b : String × String) rest,
      load_upgrade env v = .ok (good ++ b :: rest) →
      (∀ p ∈ good, env.scriptOk p.2 = true) → env.scriptOk b.2 = false →
      runReport (perform_upgrade env conn) =
        some (1, some (versionRange 0 (v - 1)), v - 1, true)) ∧
    (∀ s, load_upgrade env v = .ok s → (∀ p ∈ s, env.scriptOk p.2 = true) →
      env.insertRowcount v ≠ 1 →
      runReport (perform_upgrade env conn) =
        some (1, some (versionRange 0 v), v, true)) := by
  have ha : get_active_version conn.current = a := get_active_version_range h0 hchg
  have hne : a - latest ≠ 0 := by omega
  have hv1 : v - 1 + 1 = v := by omega
  have hsplit : versionRange a latest =
      versionRange a (v - 1) ++ v :: versionRange v latest := by
    rw [← versionRange_append (show a ≤ v - 1 by omega)
      (show v - 1 ≤ latest by omega)]
    congr 1
    rw [versionRange_cons (show v - 1 < latest by omega), hv1]
  have hperf : perform_upgrade env conn =
      .ok (upgradeLoop env
        (versionRange a (v - 1) ++ v :: versionRange v latest) conn) := by
    unfold perform_upgrade
    rw [hl, initState_ready (by omega)]
    simp only [ha, if_neg hne]
    rw [hsplit]
  have hprem : ∀ w ∈ versionRange a (v - 1),
      (∃ s, load_upgrade env w = .ok s ∧ ∀ p ∈ s, env.scriptOk p.2 = true) ∧
      env.insertRowcount w = 1 := by
    intro w hw
    obtain ⟨hw1, hw2⟩ := mem_versionRange.mp hw
    exact hpre w hw1 (by omega)
  refine ⟨?_, ?_⟩
  · intro good b rest hfv hgood hb
    obtain ⟨c, hloop, d1, d2⟩ :=
      upgradeLoop_fail env (versionRange a (v - 1)) v (versionRange v latest) conn
        (versionRange 0 a) hchg hcc hprem ⟨good, b, rest, hfv, hgood, hb⟩
    rw [hperf, hloop]
    simp only [runReport]
    rw [versionRange_append h0 (show a ≤ v - 1 by omega)] at d1
    rw [d1, get_active_version_range (by omega) d1]
    simp [d2]
  · intro s hfv hok hrow
    obtain ⟨c, hloop, d1, d2⟩ :=
      upgradeLoop_rowcount_fail env (versionRange a (v - 1)) v
        (versionRange v latest) conn (versionRange 0 a) hchg hcc hprem
        ⟨s, hfv, hok⟩ hrow
    rw [hperf, hloop]
    simp only [runReport]
    have hfull : versionRange 0 a ++ versionRange a (v - 1) ++ [v] =
        versionRange 0 v := by
      rw [versionRange_append h0 (show a ≤ v - 1 by omega)]
      have h2 : versionRange (v - 1) v = [v] := by
        rw [versionRange_cons (show v - 1 < v by omega), hv1,
          versionRange_nil (le_refl v)]
      rw [← h2, versionRange_append (show (0 : Int) ≤ v - 1 by omega)
        (show v - 1 ≤ v by omega)]
    rw [hfull] at d1
    rw [d1, get_active_version_range (by omega) d1]
    simp [d2]

/-- C3 witness, exercising both modes of the amended claim.  First: versions
1 and 2 succeed and version 3's second statement fails, so the run reports
status 1 with active version 2 and changelog ids 1, 2 only, with nothing
uncommitted left behind.  Second: a database at version 2 where version 3's
scripts succeed but the driver reports rowcount 0 for the changelog insert,
so the run reports status 1 with version 3 still applied (active version 3,
changelog ids 1, 2, 3). -/
theorem C3_witness :
    (runReport (perform_upgrade envFailV3 connInit) =
      some (1, some (versionRange 0 2), 2, true)) ∧
    (runReport (perform_upgrade envRowcount0 connAt2) =
      some (1, some (versionRange 0 3), 3, true)) := by
  constructor
  · have h := (C3_amended envFailV3 connInit 0 3 3
      (by decide) (by decide) (by decide) rfl rfl rfl
      (fun w h1 h2 => by
        interval_cases w
        · exact ⟨⟨_, rfl, by decide⟩, rfl⟩
        · exact ⟨⟨_, rfl, by decide⟩, rfl⟩)).1
      [("1-a", "S3A")] ("2-b", "S3B") [] rfl (by decide) rfl
    exact_mod_cast h
  · have h := (C3_amended envRowcount0 connAt2 2 3 3
      (by decide) (by decide) (by decide) rfl (by decide) rfl
      (fun w h1 h2 => ((by omega : False).elim))).2
      [("1-a", "S3")] rfl (by decide) (by decide)
    exact_mod_cast h

/-- C5: `load_upgrade_script` does return the full contents of
`<path>/<name>.sql`, but a read failure is never converted into the
`ScriptReadError` of the spec (the `raise` after the `return` in the source
is unreachable): the `IOError` escapes, and under a manifest an errno-2
script-read failure is even converted into the directory-scan fallback,
which here fails with `invalid prefix` on the `_manifest` entry itself. -/
theorem C5_script_read :
    load_upgrade_script envNoScript "u/1" "b" = .ok "SQLB" ∧
    load_upgrade_script envNoScript "u/1" "a" = .error (.ioErr 2) ∧
    load_upgrade envNoScript 1 = .error (.exception "invalid prefix") :=
  ⟨rfl, rfl, rfl⟩

/-- C7: a filename with no hyphen and a filename whose leading token is not
numeric do fail with `invalid prefix`, but a parseable non-positive token
such as `0` in `0-x.sql` does NOT fail: `script_prefix` returns the boolean
`False` and directory-scan loading succeeds. -/
theorem C7_nonpositive_returns :
    scriptPrefix "missing-prefix.sql" = .error (.exception "invalid prefix") ∧
    scriptPrefix "noprefixatall.sql" = .error (.exception "invalid prefix") ∧
    scriptPrefix "0-x.sql" = .ok false ∧
    scripts_from_upgradedir envZero "d" = .ok [("0-x", "ZERO")] :=
  ⟨rfl, rfl, rfl, rfl⟩

/-- C8 (amended): when the manifest opens and all listed scripts load,
`load_upgrade` returns the scripts in exactly the manifest's order with
trailing whitespace stripped from each line; the directory-scan fallback is
used whenever the manifest branch fails with an errno-2 `IOError` — which
covers both a missing manifest and a missing listed script file — and any
other `IOError` from that branch raises `missing manifest file`. -/
theorem C8_amended (env : Env) (v : Int) (m : String)
    (comps : List (String × String)) :
    (openFile env (pathJoin (versionDir env v) "_manifest") = .ok m →
      load_upgrade_components env (versionDir env v) (pyLines m) = .ok comps →
      load_upgrade env v = .ok comps ∧
        comps.map Prod.fst = (pyLines m).map pyRstrip) ∧
    (scripts_from_manifestfile env (versionDir env v) = .error (.ioErr 2) →
      load_upgrade env v = scripts_from_upgradedir env (versionDir env v)) ∧
    (∀ k, k ≠ 2 →
      openFile env (pathJoin (versionDir env v) "_manifest") = .error (.ioErr k) →
      load_upgrade env v = .error (.exception "missing manifest file")) := by
  refine ⟨?_, ?_, ?_⟩
  · intro hm hcomps
    have hsm : scripts_from_manifestfile env (versionDir env v) = .ok comps := by
      unfold scripts_from_manifestfile
      simp only [hm, hcomps]
    refine ⟨?_, load_upgrade_components_names env _ _ _ hcomps⟩
    unfold load_upgrade
    simp only [hsm]
  · intro hsm
    unfold load_upgrade
    simp only [hsm, if_true]
  · intro k hk hm
    have hsm : scripts_from_manifestfile env (versionDir env v) =
        .error (.ioErr k) := by
      unfold scripts_from_manifestfile
      simp only [hm]
    unfold load_upgrade
    simp only [hsm, if_neg hk]

/-- C8 (counterexample): the manifest of `envNoScript` opens successfully,
yet because its listed script `a.sql` is missing (an errno-2 `IOError` from
the script read, not from opening the manifest), `load_upgrade` silently
switches to the directory-scan fallback — refuting "the fallback is used
only when opening the manifest fails with not found". -/
theorem C8_counterexample :
    openFile envNoScript (pathJoin (versionDir envNoScript 1) "_manifest") =
      .ok "a\n" ∧
    scripts_from_manifestfile envNoScript (versionDir envNoScript 1) =
      .error (.ioErr 2) ∧
    load_upgrade envNoScript 1 =
      scripts_from_upgradedir envNoScript (versionDir envNoScript 1) :=
  ⟨rfl, rfl, rfl⟩

/-- C8 witness: a manifest listing `b`, `a`, `c` loads in exactly that
order; a manifest that exists but cannot be opened (errno 13) raises
`missing manifest file`; an errno-2 failure of the manifest branch falls
back to the directory scan. -/
theorem C8_witness :
    load_upgrade envBAC 1 = .ok [("b", "B"), ("a", "A"), ("c", "C")] ∧
    [("b", "B"), ("a", "A"), ("c", "C")].map Prod.fst =
      (pyLines "b\na\nc\n").map pyRstrip ∧
    load_upgrade envPerm 1 = .error (.exception "missing manifest file") ∧
    load_upgrade envNoScript 1 =
      scripts_from_upgradedir envNoScript (versionDir envNoScript 1) := by
  obtain ⟨h1, h2⟩ :=
    (C8_amended envBAC 1 "b\na\nc\n" [("b", "B"), ("a", "A"), ("c", "C")]).1 rfl rfl
  exact ⟨h1, h2,
    (C8_amended envPerm 1 "" []).2.2 13 (by decide) rfl,
    (C8_amended envNoScript 1 "" []).2.1 rfl⟩
